import Mathlib

/-
Verification of the financial aggregation and projection core of the
ai-trip-finance web application: income frequency normalization, expense
category aggregation, savings-goal pacing, dashboard composition and the
AI-coach request handler. Monetary amounts are modeled as exact rationals
(the DECIMAL(10,2) column values parsed by the pages); the development for
the floating-point claim additionally models IEEE-754 binary64 rounding
explicitly. Dates are modeled as integer millisecond timestamps, matching
the JavaScript Date.getTime representation used by the source.
-/

set_option maxRecDepth 20000

/-! ## Data model (from the SQL schema and the page-level record shapes) -/

/-- An income record as read by the dashboard: amount plus a frequency tag.
The frequency is a string in the source ("one-time", "monthly", "yearly",
enforced by a CHECK constraint); it is kept as a string here because the
code compares it with string equality. -/
structure IncomeRecord where
  amount : ℚ
  frequency : String

/-- An expense record as read by the dashboard: amount plus a category label
(a string drawn from a CHECK-constrained set of 7 labels). -/
structure ExpenseRecord where
  amount : ℚ
  category : String

/-- A savings goal row: target amount, current amount, target date as a
millisecond timestamp. -/
structure SavingsGoal where
  target_amount : ℚ
  current_amount : ℚ
  target_date : ℤ

/-! ## Frequency Normalizer (Dashboard.tsx lines 54-59, edge function lines 135-140)

The source folds over the income rows:
  reduce((sum, item) => { const amount = parseFloat(item.amount);
    if (item.frequency === "yearly") return sum + amount / 12;
    if (item.frequency === "monthly") return sum + amount;
    return sum; }, 0)
-/

/-- One step of the income-normalizing reduce. -/
def incomeStep (sum : ℚ) (item : IncomeRecord) : ℚ :=
  if item.frequency = "yearly" then sum + item.amount / 12
  else if item.frequency = "monthly" then sum + item.amount
  else sum

/-- Total monthly-normalized income: the reduce over the income rows with
initial accumulator 0. -/
def totalIncome (l : List IncomeRecord) : ℚ :=
  l.foldl incomeStep 0

/-- Sum of the amounts of the records carrying a given frequency tag. -/
def frequencySum (l : List IncomeRecord) (f : String) : ℚ :=
  ((l.filter fun i => i.frequency = f).map IncomeRecord.amount).sum

lemma incomeStep_shift (s : ℚ) (i : IncomeRecord) :
    incomeStep s i = s + incomeStep 0 i := by
  unfold incomeStep
  by_cases hy : i.frequency = "yearly" <;>
    by_cases hm : i.frequency = "monthly" <;> simp [hy, hm]

lemma totalIncome_foldl_shift (l : List IncomeRecord) :
    ∀ s : ℚ, l.foldl incomeStep s = s + l.foldl incomeStep 0 := by
  induction l with
  | nil => intro s; simp
  | cons x xs ih =>
      intro s
      simp only [List.foldl_cons]
      rw [ih (incomeStep s x), ih (incomeStep 0 x), incomeStep_shift s x]
      ring

/-- C1. For every list of income records, the normalized monthly income total
equals the sum of the amounts of records tagged "monthly", plus the sum of the
amounts of records tagged "yearly" divided by 12; records tagged "one-time"
(and any tag other than "monthly"/"yearly") contribute 0, and the empty list
yields 0. -/
theorem income_normalization_correct (l : List IncomeRecord) :
    totalIncome l = frequencySum l "monthly" + frequencySum l "yearly" / 12 ∧
    totalIncome [] = 0 := by
  constructor
  · induction l with
    | nil => simp [totalIncome, frequencySum]
    | cons x xs ih =>
        have hshift := totalIncome_foldl_shift xs (incomeStep 0 x)
        unfold totalIncome at *
        simp only [List.foldl_cons]
        rw [hshift, ih]
        unfold frequencySum incomeStep
        by_cases hy : x.frequency = "yearly"
        · simp [hy, List.filter_cons]
          ring
        · by_cases hm : x.frequency = "monthly"
          · simp [hy, hm, List.filter_cons]
            ring
          · simp [hy, hm, List.filter_cons]
  · rfl

/-! ## Category Aggregator (Dashboard.tsx lines 67-78)

The source computes
  totalExpenses = expensesData.reduce((sum, item) => sum + parseFloat(item.amount), 0)
and builds the per-category list by
  reduce((acc, item) => { const existing = acc.find(e => e.name === item.category);
    if (existing) { existing.value += parseFloat(item.amount); }
    else { acc.push({ name: item.category, value: parseFloat(item.amount) }); }
    return acc; }, [])
Amounts are modeled as exact rationals here; the binary64 rounding of the
actual JavaScript arithmetic is treated separately below. -/

/-- Grand total of expense amounts: the reduce with initial accumulator 0. -/
def totalExpenses (l : List ExpenseRecord) : ℚ :=
  l.foldl (fun sum item => sum + item.amount) 0

/-- Add an amount to the first entry of the accumulator carrying the given
category name, leaving everything else in place (the in-place
`existing.value += amount` on the element returned by `find`). -/
def bumpFirst : List (String × ℚ) → String → ℚ → List (String × ℚ)
  | [], _, _ => []
  | p :: rest, c, a =>
      if p.1 = c then (p.1, p.2 + a) :: rest else p :: bumpFirst rest c a

/-- One step of the category-grouping reduce: if an entry with the record
category already exists, bump it; otherwise push a fresh entry at the end. -/
def categoryStep (acc : List (String × ℚ)) (item : ExpenseRecord) : List (String × ℚ) :=
  if (acc.find? fun e => e.1 = item.category).isSome then
    bumpFirst acc item.category item.amount
  else
    acc ++ [(item.category, item.amount)]

/-- The per-category mapping, as the ordered name/value list the source
accumulates. -/
def expensesByCategory (l : List ExpenseRecord) : List (String × ℚ) :=
  l.foldl categoryStep []

lemma bumpFirst_snd_sum (l : List (String × ℚ)) (c : String) (a : ℚ)
    (h : (l.find? fun e => e.1 = c).isSome) :
    ((bumpFirst l c a).map Prod.snd).sum = (l.map Prod.snd).sum + a := by
  induction l with
  | nil => simp [List.find?] at h
  | cons p rest ih =>
      by_cases hp : p.1 = c
      · simp [bumpFirst, hp]
        ring
      · have h' : (rest.find? fun e => e.1 = c).isSome := by
          rw [List.find?_cons_of_neg] at h
          · exact h
          · simp [hp]
        simp [bumpFirst, hp, ih h']
        ring

lemma bumpFirst_fst (l : List (String × ℚ)) (c : String) (a : ℚ) :
    (bumpFirst l c a).map Prod.fst = l.map Prod.fst := by
  induction l with
  | nil => simp [bumpFirst]
  | cons p rest ih =>
      by_cases hp : p.1 = c <;> simp [bumpFirst, hp, ih]

lemma categoryStep_snd_sum (acc : List (String × ℚ)) (item : ExpenseRecord) :
    ((categoryStep acc item).map Prod.snd).sum = (acc.map Prod.snd).sum + item.amount := by
  unfold categoryStep
  by_cases h : (acc.find? fun e => e.1 = item.category).isSome
  · simp only [h, if_true]
    exact bumpFirst_snd_sum acc item.category item.amount h
  · simp [h]

lemma categoryStep_fst (acc : List (String × ℚ)) (item : ExpenseRecord) :
    (categoryStep acc item).map Prod.fst ⊆ acc.map Prod.fst ++ [item.category] := by
  unfold categoryStep
  by_cases h : (acc.find? fun e => e.1 = item.category).isSome
  · simp only [h, if_true, bumpFirst_fst]
    exact List.subset_append_left _ _
  · simp [h]

lemma foldl_categoryStep_sum (l : List ExpenseRecord) :
    ∀ acc : List (String × ℚ),
      ((l.foldl categoryStep acc).map Prod.snd).sum =
        (acc.map Prod.snd).sum + (l.map ExpenseRecord.amount).sum := by
  induction l with
  | nil => intro acc; simp
  | cons x xs ih =>
      intro acc
      simp only [List.foldl_cons, List.map_cons, List.sum_cons]
      rw [ih (categoryStep acc x), categoryStep_snd_sum]
      ring

lemma foldl_categoryStep_fst (l : List ExpenseRecord) :
    ∀ acc : List (String × ℚ), ∀ c : String,
      c ∈ (l.foldl categoryStep acc).map Prod.fst →
        c ∈ acc.map Prod.fst ∨ c ∈ l.map ExpenseRecord.category := by
  induction l with
  | nil => intro acc c h; simp at h; simp [h]
  | cons x xs ih =>
      intro acc c h
      simp only [List.foldl_cons] at h
      rcases ih (categoryStep acc x) c h with h' | h'
      · have := categoryStep_fst acc x h'
        rw [List.mem_append] at this
        rcases this with h'' | h''
        · exact Or.inl h''
        · right
          simp at h''
          simp [h'']
      · right
        simp [h']

lemma totalExpenses_foldl_shift (l : List ExpenseRecord) :
    ∀ s : ℚ, l.foldl (fun sum item => sum + item.amount) s =
      s + l.foldl (fun sum item => sum + item.amount) 0 := by
  induction l with
  | nil => intro s; simp
  | cons x xs ih =>
      intro s
      simp only [List.foldl_cons]
      rw [ih (s + x.amount), ih (0 + x.amount)]
      ring

lemma totalExpenses_eq_sum (l : List ExpenseRecord) :
    totalExpenses l = (l.map ExpenseRecord.amount).sum := by
  induction l with
  | nil => rfl
  | cons x xs ih =>
      unfold totalExpenses at *
      simp only [List.foldl_cons, List.map_cons, List.sum_cons]
      rw [totalExpenses_foldl_shift xs (0 + x.amount), ih]
      ring

/-- C2. For every list of expense records, the grand total equals the sum of
the values of the per-category mapping (no record lost or double-counted),
and every category name appearing in the mapping occurs among the categories
of the input records (no zero-filling of absent categories). -/
theorem category_aggregation_conserves_sum (l : List ExpenseRecord) :
    totalExpenses l = ((expensesByCategory l).map Prod.snd).sum ∧
    ∀ c : String, c ∈ (expensesByCategory l).map Prod.fst →
      c ∈ l.map ExpenseRecord.category := by
  constructor
  · rw [totalExpenses_eq_sum, expensesByCategory, foldl_categoryStep_sum l []]
    simp
  · intro c hc
    rcases foldl_categoryStep_fst l [] c hc with h | h
    · simp at h
    · exact h

/-- Witness for C2: on the concrete input [(5, "Food"), (7, "Hotels"),
(3, "Food")] the membership hypothesis is discharged for the category
"Food", which indeed occurs in the input. -/
theorem category_aggregation_conserves_sum_witness :
    "Food" ∈ ([⟨5, "Food"⟩, ⟨7, "Hotels"⟩, ⟨3, "Food"⟩] :
        List ExpenseRecord).map ExpenseRecord.category :=
  (category_aggregation_conserves_sum
      [⟨5, "Food"⟩, ⟨7, "Hotels"⟩, ⟨3, "Food"⟩]).2 "Food" (by
    simp [expensesByCategory, categoryStep, bumpFirst, List.find?])

/-! ## Goal Pacer (Savings.tsx lines 248-254 and the display guard at 290-297)

The source computes, per goal:
  daysUntilTarget = Math.ceil((new Date(goal.target_date).getTime() - new Date().getTime())
                              / (1000*60*60*24))
  monthlyNeeded = daysUntilTarget > 0
    ? ((target_amount - current_amount) / (daysUntilTarget / 30)) : 0
and renders the pacing line only under the guard `monthlyNeeded > 0`. -/

/-- Milliseconds per day, the divisor 1000*60*60*24 from the source. -/
def msPerDay : ℤ := 1000 * 60 * 60 * 24

/-- Days until the target date: the millisecond difference divided by a day,
rounded up (Math.ceil). Both dates are millisecond timestamps. -/
def daysUntilTarget (targetMs nowMs : ℤ) : ℤ :=
  ⌈((targetMs - nowMs : ℤ) : ℚ) / (msPerDay : ℚ)⌉

/-- Required monthly contribution: the 30-day-month pacing formula when days
remain, otherwise the fallback 0 from the ternary. -/
def monthlyNeeded (target_amount current_amount : ℚ) (days : ℤ) : ℚ :=
  if 0 < days then (target_amount - current_amount) / ((days : ℚ) / 30) else 0

/-- The rendered pacing figure: the source shows the "Save $X/month" line only
when `monthlyNeeded > 0`, so the user-visible pacing output is this option. -/
def pacingDisplay (target_amount current_amount : ℚ) (days : ℤ) : Option ℚ :=
  if 0 < monthlyNeeded target_amount current_amount days then
    some (monthlyNeeded target_amount current_amount days)
  else none

/-- C3. For every goal with strictly positive days remaining, the pacing
figure equals (target − current) / (days / 30); days remaining is the
timestamp difference in whole days rounded up, so a goal due within the next
day counts as exactly 1 day; and the concrete instance target 2000, current
500 with a target date 90 days out yields a monthly amount of 500. -/
theorem goal_pacing_formula :
    (∀ (t c : ℚ) (d : ℤ), 0 < d →
        monthlyNeeded t c d = (t - c) / ((d : ℚ) / 30)) ∧
    (∀ targetMs nowMs : ℤ, 0 < targetMs - nowMs → targetMs - nowMs ≤ msPerDay →
        daysUntilTarget targetMs nowMs = 1) ∧
    daysUntilTarget (90 * msPerDay) 0 = 90 ∧
    monthlyNeeded 2000 500 (daysUntilTarget (90 * msPerDay) 0) = 500 := by
  have h90 : daysUntilTarget (90 * msPerDay) 0 = 90 := by
    unfold daysUntilTarget msPerDay
    rw [show (((90 * (1000 * 60 * 60 * 24) : ℤ) - 0 : ℤ) : ℚ) /
          (((1000 * 60 * 60 * 24 : ℤ)) : ℚ) = (90 : ℚ) by norm_num]
    norm_num
  refine ⟨?_, ?_, h90, ?_⟩
  · intro t c d hd
    simp [monthlyNeeded, hd]
  · intro targetMs nowMs h1 h2
    unfold daysUntilTarget
    rw [Int.ceil_eq_iff]
    constructor
    · push_cast
      norm_num
      apply div_pos
      · exact_mod_cast h1
      · norm_num [msPerDay]
    · push_cast
      rw [div_le_one (by norm_num [msPerDay])]
      have := h2
      unfold msPerDay at this
      exact_mod_cast this
  · rw [h90]
    norm_num [monthlyNeeded]

/-- Witness for C3: the theorem applied at target 2000, current 500 and 90
days remaining, and at a goal due half a day from now. -/
theorem goal_pacing_formula_witness :
    monthlyNeeded 2000 500 90 = (2000 - 500) / ((90 : ℚ) / 30) ∧
    daysUntilTarget 43200000 0 = 1 :=
  ⟨goal_pacing_formula.1 2000 500 90 (by decide),
   goal_pacing_formula.2.1 43200000 0 (by decide) (by decide)⟩

/-- C4. For every goal whose days remaining is zero or negative, the rendered
pacing output is absent (the internal ternary falls back to 0, and the
display guard `monthlyNeeded > 0` then suppresses the pacing line, so
nothing — neither zero nor a negative figure — is shown). -/
theorem pacing_absent_when_past_due (t c : ℚ) (d : ℤ) (h : d ≤ 0) :
    pacingDisplay t c d = none := by
  have hm : monthlyNeeded t c d = 0 := by
    simp [monthlyNeeded, not_lt.mpr h]
  simp [pacingDisplay, hm]

/-- Witness for C4: a goal due today (0 days remaining) renders no pacing
output. -/
theorem pacing_absent_when_past_due_witness :
    pacingDisplay 2000 500 0 = none :=
  pacing_absent_when_past_due 2000 500 0 (by decide)

/-- C10. For every goal with positive days remaining whose current amount has
reached or exceeded its target, the computed monthly amount is zero or
negative and the strictly-positive display guard therefore suppresses the
pacing line — even though the specification makes pacing absent only for
days remaining ≤ 0. -/
theorem pacing_absent_when_goal_met (t c : ℚ) (d : ℤ)
    (hd : 0 < d) (hc : t ≤ c) :
    monthlyNeeded t c d ≤ 0 ∧ pacingDisplay t c d = none := by
  have hm : monthlyNeeded t c d ≤ 0 := by
    rw [monthlyNeeded, if_pos hd]
    apply div_nonpos_of_nonpos_of_nonneg
    · linarith
    · positivity
  exact ⟨hm, by simp [pacingDisplay, not_lt.mpr hm]⟩

/-- Witness for C10: an overshot goal (target 1000, current 1500) with 30
days remaining shows no pacing line. -/
theorem pacing_absent_when_goal_met_witness :
    monthlyNeeded 1000 1500 30 ≤ 0 ∧ pacingDisplay 1000 1500 30 = none :=
  pacing_absent_when_goal_met 1000 1500 30 (by decide) (by norm_num)

/-! ## Dashboard Composer: aggregate savings progress (Dashboard.tsx lines 86-88)

The source computes
  totalTargetSavings = savingsData.reduce((sum, item) => sum + parseFloat(item.target_amount), 0)
  totalCurrentSavings = savingsData.reduce((sum, item) => sum + parseFloat(item.current_amount), 0)
  savingsGoalProgress = totalTargetSavings > 0
    ? (totalCurrentSavings / totalTargetSavings) * 100 : 0
-/

/-- Sum of the target amounts across all savings goals. -/
def totalTargetSavings (l : List SavingsGoal) : ℚ :=
  l.foldl (fun sum g => sum + g.target_amount) 0

/-- Sum of the current amounts across all savings goals. -/
def totalCurrentSavings (l : List SavingsGoal) : ℚ :=
  l.foldl (fun sum g => sum + g.current_amount) 0

/-- Aggregate savings progress: the guarded ratio times 100, with fallback 0
when the summed target is not positive. A total function — there is no
division failure to guard against at runtime. -/
def savingsGoalProgress (l : List SavingsGoal) : ℚ :=
  if 0 < totalTargetSavings l then totalCurrentSavings l / totalTargetSavings l * 100
  else 0

lemma totalTargetSavings_foldl_shift (l : List SavingsGoal) :
    ∀ s : ℚ, l.foldl (fun sum g => sum + g.target_amount) s =
      s + l.foldl (fun sum g => sum + g.target_amount) 0 := by
  induction l with
  | nil => intro s; simp
  | cons x xs ih =>
      intro s
      simp only [List.foldl_cons]
      rw [ih (s + x.target_amount), ih (0 + x.target_amount)]
      ring

lemma totalTargetSavings_nonneg (l : List SavingsGoal)
    (h : ∀ g ∈ l, 0 < g.target_amount) : 0 ≤ totalTargetSavings l := by
  induction l with
  | nil => simp [totalTargetSavings]
  | cons x xs ih =>
      unfold totalTargetSavings at *
      simp only [List.foldl_cons]
      rw [totalTargetSavings_foldl_shift xs (0 + x.target_amount)]
      have hx : 0 < x.target_amount := h x (List.mem_cons_self x xs)
      have hxs : 0 ≤ xs.foldl (fun sum g => sum + g.target_amount) 0 :=
        ih fun g hg => h g (List.mem_cons_of_mem x hg)
      linarith

lemma totalTargetSavings_pos (l : List SavingsGoal) (hne : l ≠ [])
    (h : ∀ g ∈ l, 0 < g.target_amount) : 0 < totalTargetSavings l := by
  match l, hne with
  | x :: xs, _ =>
      unfold totalTargetSavings
      simp only [List.foldl_cons]
      rw [totalTargetSavings_foldl_shift xs (0 + x.target_amount)]
      have hx : 0 < x.target_amount := h x (List.mem_cons_self x xs)
      have hxs : 0 ≤ totalTargetSavings xs :=
        totalTargetSavings_nonneg xs fun g hg => h g (List.mem_cons_of_mem x hg)
      unfold totalTargetSavings at hxs
      linarith

/-- C6. For every list of savings goals whose target amounts satisfy the
schema constraint target_amount > 0, the aggregate progress equals
(sum of current amounts / sum of target amounts) * 100 — the empty list
falls into the guard branch and yields 0, which coincides with the formula
under the division-by-zero convention of ℚ — and the empty list yields 0
outright; `savingsGoalProgress` is a total function, so no runtime division
failure can occur. -/
theorem aggregate_progress_correct :
    (∀ l : List SavingsGoal, (∀ g ∈ l, 0 < g.target_amount) →
        savingsGoalProgress l = totalCurrentSavings l / totalTargetSavings l * 100) ∧
    savingsGoalProgress [] = 0 := by
  constructor
  · intro l h
    rcases eq_or_ne l [] with rfl | hne
    · simp [savingsGoalProgress, totalTargetSavings, totalCurrentSavings]
    · rw [savingsGoalProgress, if_pos (totalTargetSavings_pos l hne h)]
  · rfl

/-- Witness for C6: for the single goal (target 2000, current 500) the
hypothesis holds and the progress is the ratio formula, which evaluates
to 25. -/
theorem aggregate_progress_correct_witness :
    savingsGoalProgress [⟨2000, 500, 0⟩] =
      totalCurrentSavings [⟨2000, 500, 0⟩] / totalTargetSavings [⟨2000, 500, 0⟩] * 100 ∧
    savingsGoalProgress [⟨2000, 500, 0⟩] = 25 := by
  have h := aggregate_progress_correct.1 [⟨2000, 500, 0⟩] (by
    intro g hg
    simp at hg
    rw [hg]
    norm_num)
  refine ⟨h, ?_⟩
  rw [h]
  norm_num [totalCurrentSavings, totalTargetSavings]

/-! ## Goal contribution (Savings.tsx lines 108-130 and 299-323)

The Add button (and the Enter key handler) computes
  newTotal = parseFloat(goal.current_amount) + parseFloat(input.value || "0")
and unconditionally calls handleUpdateProgress(goal.id, newTotal), which
issues an update setting current_amount to the new value. There is no
validation branch: a missing input is parsed as "0" and any parseable
amount, positive or not, is applied. -/

/-- The update issued by handleUpdateProgress: store the new current amount
on the goal row. -/
def handleUpdateProgress (g : SavingsGoal) (newAmount : ℚ) : SavingsGoal :=
  { g with current_amount := newAmount }

/-- Parsing of the contribution input field: `input.value || "0"` turns a
missing (empty) value into "0"; otherwise the entered number is used. -/
def parseContribution : Option ℚ → ℚ
  | none => 0
  | some v => v

/-- The Add-button click handler: always issues exactly one update, with the
old current amount plus the parsed contribution. The boolean records that an
update call was issued (it always is — the handler has no rejection path). -/
def addButtonClick (g : SavingsGoal) (inputValue : Option ℚ) : SavingsGoal × Bool :=
  (handleUpdateProgress g (g.current_amount + parseContribution inputValue), true)

/-- C8. The contribution operation is additive and not idempotent: applying a
contribution c sets current_amount to old current_amount + c, and two
sequential contributions of 100 to a goal with current_amount 0 yield
current_amount 200, not 100. -/
theorem contribution_additive_not_idempotent :
    (∀ (g : SavingsGoal) (c : ℚ),
        (addButtonClick g (some c)).1.current_amount = g.current_amount + c) ∧
    ((addButtonClick (addButtonClick ⟨2000, 0, 0⟩ (some 100)).1 (some 100)).1.current_amount
        = 200 ∧
      (addButtonClick (addButtonClick ⟨2000, 0, 0⟩ (some 100)).1 (some 100)).1.current_amount
        ≠ 100) := by
  refine ⟨fun g c => rfl, by norm_num [addButtonClick, handleUpdateProgress, parseContribution],
    by norm_num [addButtonClick, handleUpdateProgress, parseContribution]⟩

/-- C9 counterexample. The claim — a non-positive or missing contribution is
rejected as a validation error before any update to the stored
current_amount occurs — is false on the code: clicking Add with the negative
entry -50 on a goal with current_amount 100 issues an update (the handler
has no rejection path) and the stored current_amount becomes 50. -/
theorem contribution_validation_counterexample :
    (addButtonClick ⟨1000, 100, 0⟩ (some (-50))).2 = true ∧
    (addButtonClick ⟨1000, 100, 0⟩ (some (-50))).1.current_amount = 50 ∧
    (addButtonClick ⟨1000, 100, 0⟩ (some (-50))).1 ≠ (⟨1000, 100, 0⟩ : SavingsGoal) := by
  refine ⟨rfl, by norm_num [addButtonClick, handleUpdateProgress, parseContribution], ?_⟩
  intro h
  have := congrArg SavingsGoal.current_amount h
  norm_num [addButtonClick, handleUpdateProgress, parseContribution] at this

/-- C9 amended. The contribution handler performs no positivity validation:
for every goal and every entered amount — including non-positive ones — it
issues exactly one update storing old current_amount plus the amount, and for
a missing amount it still issues an update (with the amount parsed as 0, so
the stored value is unchanged). -/
theorem contribution_no_validation :
    (∀ (g : SavingsGoal) (v : ℚ), v ≤ 0 →
        (addButtonClick g (some v)).2 = true ∧
        (addButtonClick g (some v)).1.current_amount = g.current_amount + v) ∧
    (∀ g : SavingsGoal,
        (addButtonClick g none).2 = true ∧
        (addButtonClick g none).1.current_amount = g.current_amount) := by
  constructor
  · intro g v _
    exact ⟨rfl, rfl⟩
  · intro g
    refine ⟨rfl, ?_⟩
    simp [addButtonClick, handleUpdateProgress, parseContribution]

/-- Witness for the amended C9: the non-positive contribution -25 on a goal
with current amount 400 is applied, yielding 375. -/
theorem contribution_no_validation_witness :
    (addButtonClick ⟨500, 400, 0⟩ (some (-25))).2 = true ∧
    (addButtonClick ⟨500, 400, 0⟩ (some (-25))).1.current_amount = 400 + (-25) :=
  contribution_no_validation.1 ⟨500, 400, 0⟩ (-25) (by norm_num)

/-! ## Advice Request handler (edge function, serve handler lines 99-219)

The handler rejects a missing API key, a missing Authorization header and an
invalid user by throwing (caught below as a status-500 error response with
the thrown message); a gateway status of 429 yields a dedicated rate-limit
response, 402 a dedicated payment-required response, and any other non-ok
HTTP status throws "AI gateway error", which the catch block surfaces as the
fixed generic status-500 response. A network-level failure of the fetch
itself (the promise rejecting) also lands in the catch block, which relays
the thrown message verbatim with status 500 — such a failure is not mapped
to the fixed generic text and carries whatever message the runtime threw.
An ok outcome returns the recommendation text. -/

/-- Outcome of the outbound chat-completion call. -/
inductive GatewayOutcome where
  | ok (content : String)
  | httpError (status : Nat)
  | networkFailure (message : String)

/-- Body of the HTTP response the handler returns: either a recommendation
payload or an error payload. -/
inductive ResponseBody where
  | recommendation (text : String)
  | errorBody (text : String)
deriving DecidableEq

/-- An HTTP response: status code plus JSON body. -/
structure AiCoachResponse where
  status : Nat
  body : ResponseBody
deriving DecidableEq

/-- The serve handler, as a function of the request context (API key
configured, Authorization header present, token resolves to a user) and the
gateway outcome. Thrown errors land in the catch block, which returns status
500 with the thrown message. -/
def aiCoachHandler (hasApiKey hasAuthHeader userValid : Bool)
    (outcome : GatewayOutcome) : AiCoachResponse :=
  if !hasApiKey then ⟨500, .errorBody "LOVABLE_API_KEY is not configured"⟩
  else if !hasAuthHeader then ⟨500, .errorBody "No authorization header"⟩
  else if !userValid then ⟨500, .errorBody "Unauthorized"⟩
  else
    match outcome with
    | .ok content => ⟨200, .recommendation content⟩
    | .httpError s =>
        if s = 429 then ⟨429, .errorBody "Rate limit exceeded. Please try again later."⟩
        else if s = 402 then
          ⟨402, .errorBody "Payment required. Please add credits to your Lovable AI workspace."⟩
        else ⟨500, .errorBody "AI gateway error"⟩
    | .networkFailure msg => ⟨500, .errorBody msg⟩

/-- C7 counterexample. The claim — every failure of the external call is
surfaced as one of four distinct categories, never collapsed — is false on
the code: a network-level failure of the fetch is relayed verbatim as a
status-500 response carrying the thrown message, so (a) with the concrete
thrown message "Unauthorized" the external-call failure is surfaced
identically to the unauthorized-request response (two failure classes
collapse to one indistinguishable response), and (b) with the concrete
thrown message "connection reset" the surfaced response is none of the four
category responses (rate-limited, payment-required, unauthorized, fixed
generic). -/
theorem advice_network_failure_collapses :
    aiCoachHandler true true true (.networkFailure "Unauthorized") =
      aiCoachHandler true true false (.ok "advice text") ∧
    aiCoachHandler true true true (.networkFailure "connection reset") =
      ⟨500, .errorBody "connection reset"⟩ ∧
    (⟨500, .errorBody "connection reset"⟩ : AiCoachResponse) ≠
      ⟨429, .errorBody "Rate limit exceeded. Please try again later."⟩ ∧
    (⟨500, .errorBody "connection reset"⟩ : AiCoachResponse) ≠
      ⟨402, .errorBody "Payment required. Please add credits to your Lovable AI workspace."⟩ ∧
    (⟨500, .errorBody "connection reset"⟩ : AiCoachResponse) ≠
      ⟨500, .errorBody "AI gateway error"⟩ ∧
    (⟨500, .errorBody "connection reset"⟩ : AiCoachResponse) ≠
      ⟨500, .errorBody "Unauthorized"⟩ := by
  exact ⟨rfl, rfl, by decide, by decide, by decide, by decide⟩

/-- C7 amended. HTTP failures of the external call with status 429 and 402
are surfaced as dedicated rate-limited and payment-required responses, any
other non-ok HTTP status as the fixed generic gateway-error response, and an
invalid user as the unauthorized response; these four fixed responses are
pairwise distinct. A network-level failure of the external call, however, is
relayed as a status-500 response carrying the thrown message verbatim: it is
assigned no fixed category of its own and (as the counterexample shows) can
coincide with the unauthorized response, so only the HTTP-status failures —
not every failure — are guaranteed a distinct category. -/
theorem advice_failure_categories :
    aiCoachHandler true true true (.httpError 429) =
      ⟨429, .errorBody "Rate limit exceeded. Please try again later."⟩ ∧
    aiCoachHandler true true true (.httpError 402) =
      ⟨402, .errorBody "Payment required. Please add credits to your Lovable AI workspace."⟩ ∧
    (∀ s : Nat, s ≠ 429 → s ≠ 402 →
        aiCoachHandler true true true (.httpError s) = ⟨500, .errorBody "AI gateway error"⟩) ∧
    (∀ o : GatewayOutcome, aiCoachHandler true true false o = ⟨500, .errorBody "Unauthorized"⟩) ∧
    (∀ msg : String,
        aiCoachHandler true true true (.networkFailure msg) = ⟨500, .errorBody msg⟩) ∧
    ((⟨429, .errorBody "Rate limit exceeded. Please try again later."⟩ : AiCoachResponse) ≠
        ⟨402, .errorBody "Payment required. Please add credits to your Lovable AI workspace."⟩ ∧
      (⟨429, .errorBody "Rate limit exceeded. Please try again later."⟩ : AiCoachResponse) ≠
        ⟨500, .errorBody "AI gateway error"⟩ ∧
      (⟨429, .errorBody "Rate limit exceeded. Please try again later."⟩ : AiCoachResponse) ≠
        ⟨500, .errorBody "Unauthorized"⟩ ∧
      (⟨402, .errorBody "Payment required. Please add credits to your Lovable AI workspace."⟩ :
          AiCoachResponse) ≠ ⟨500, .errorBody "AI gateway error"⟩ ∧
      (⟨402, .errorBody "Payment required. Please add credits to your Lovable AI workspace."⟩ :
          AiCoachResponse) ≠ ⟨500, .errorBody "Unauthorized"⟩ ∧
      (⟨500, .errorBody "AI gateway error"⟩ : AiCoachResponse) ≠
        ⟨500, .errorBody "Unauthorized"⟩) := by
  refine ⟨rfl, rfl, ?_, ?_, fun msg => rfl, by decide⟩
  · intro s h429 h402
    simp [aiCoachHandler, h429, h402]
  · intro o
    cases o <;> rfl

/-- Witness for the amended C7: the gateway status 503 — neither 429 nor
402 — is surfaced through the fixed generic gateway-error response. -/
theorem advice_failure_categories_witness :
    aiCoachHandler true true true (.httpError 503) =
      ⟨500, .errorBody "AI gateway error"⟩ :=
  advice_failure_categories.2.2.1 503 (by decide) (by decide)

/-! ## Binary64 arithmetic model (Dashboard.tsx lines 67-78, parseFloat accumulation)

JavaScript numbers are IEEE-754 binary64 values; parseFloat rounds the
decimal column value to the nearest double and the + operator rounds every
intermediate sum (round-to-nearest, ties-to-even). The following model makes
that rounding explicit for values in the normal range, in order to settle
whether the accumulated totals coincide with exact decimal sums. -/

/-- Position of the leading binary digit of a positive rational: the greatest
e with 2^e ≤ q. -/
def binade (q : ℚ) : ℤ := Int.log 2 q

/-- Round a rational to the nearest integer, ties to the even neighbour. -/
def roundHalfToEven (q : ℚ) : ℤ :=
  if q - (⌊q⌋ : ℚ) < 1 / 2 then ⌊q⌋
  else if 1 / 2 < q - (⌊q⌋ : ℚ) then ⌊q⌋ + 1
  else if ⌊q⌋ % 2 = 0 then ⌊q⌋ else ⌊q⌋ + 1

/-- Binary64 rounding of a positive rational: scale into the 53-bit
significand range, round ties to even, scale back. -/
def roundB64pos (q : ℚ) : ℚ :=
  (roundHalfToEven (q * 2 ^ (52 - binade q)) : ℚ) * 2 ^ (binade q - 52)

/-- Model of IEEE-754 binary64 round-to-nearest-even for values in the
normal range (overflow and subnormals are irrelevant at the magnitudes of
DECIMAL(10,2) amounts). -/
def roundB64 (q : ℚ) : ℚ :=
  if q = 0 then 0
  else if q < 0 then -roundB64pos (-q)
  else roundB64pos q

/-- Binary64 addition: the exact sum, then rounding — exactly what the
JavaScript + operator computes on doubles. -/
def fadd (a b : ℚ) : ℚ := roundB64 (a + b)

/-- The grand-total reduce of Dashboard.tsx line 67 as actually executed in
binary64: each stored amount is parsed to the nearest double and every
partial sum is rounded. -/
def totalExpensesF (amounts : List ℚ) : ℚ :=
  amounts.foldl (fun sum a => fadd sum (roundB64 a)) 0

lemma binade_eq_of {q : ℚ} {e : ℤ} (h1 : (2:ℚ) ^ e ≤ q) (h2 : q < (2:ℚ) ^ (e + 1)) :
    binade q = e := by
  have h2q : ((2:ℕ):ℚ) = (2:ℚ) := by norm_num
  have hq : 0 < q := lt_of_lt_of_le (by positivity) h1
  unfold binade
  refine le_antisymm ?_ ?_
  · have := (Int.lt_zpow_iff_log_lt (b := 2) (by norm_num) hq).mp (by rw [h2q]; exact h2)
    omega
  · exact (Int.zpow_le_iff_le_log (b := 2) (by norm_num) hq).mp (by rw [h2q]; exact h1)

lemma roundHalfToEven_intCast (m : ℤ) : roundHalfToEven (m : ℚ) = m := by
  unfold roundHalfToEven
  rw [Int.floor_intCast]
  rw [if_pos (by norm_num)]

lemma roundB64_intCast (n : ℕ) (h : n < 2 ^ 53) : roundB64 (n : ℚ) = n := by
  rcases Nat.eq_zero_or_pos n with rfl | hn
  · simp [roundB64]
  · have hq : (0:ℚ) < n := by exact_mod_cast hn
    have hne : (n : ℚ) ≠ 0 := ne_of_gt hq
    have hnneg : ¬ (n : ℚ) < 0 := not_lt.mpr (le_of_lt hq)
    rw [roundB64, if_neg hne, if_neg hnneg]
    set e := binade (n : ℚ) with he
    have h2q : ((2:ℕ):ℚ) = (2:ℚ) := by norm_num
    have he0 : 0 ≤ e := by
      rw [he]
      unfold binade
      refine (Int.zpow_le_iff_le_log (b := 2) (by norm_num) hq).mp ?_
      rw [zpow_zero]
      exact_mod_cast hn
    have he52 : e ≤ 52 := by
      have h53 : e < 53 := by
        rw [he]
        unfold binade
        refine (Int.lt_zpow_iff_log_lt (b := 2) (by norm_num) hq).mp ?_
        rw [show ((53:ℤ)) = ((53:ℕ):ℤ) by norm_num, zpow_natCast, h2q]
        exact_mod_cast h
      omega
    have hz : ((2:ℚ) ^ ((52 - e).toNat : ℕ)) = (2:ℚ) ^ (52 - e) := by
      rw [← zpow_natCast, Int.toNat_of_nonneg (by omega)]
    have hkey : (n : ℚ) * 2 ^ (52 - e) = ((n * 2 ^ (52 - e).toNat : ℕ) : ℚ) := by
      push_cast
      rw [hz]
    rw [roundB64pos, ← he, hkey]
    rw [show ((n * 2 ^ (52 - e).toNat : ℕ) : ℚ) = (((n * 2 ^ (52 - e).toNat : ℕ) : ℤ) : ℚ) by
      push_cast; ring]
    rw [roundHalfToEven_intCast]
    push_cast
    rw [hz, mul_assoc, ← zpow_add₀ (by norm_num : (2:ℚ) ≠ 0),
      show (52 - e) + (e - 52) = 0 by ring, zpow_zero, mul_one]

lemma fadd_natCast (a b : ℕ) (h : a + b < 2 ^ 53) : fadd (a : ℚ) (b : ℚ) = ((a + b : ℕ) : ℚ) := by
  unfold fadd
  rw [show (a : ℚ) + (b : ℚ) = ((a + b : ℕ) : ℚ) by push_cast; ring]
  rw [roundB64_intCast _ h]

lemma totalExpensesF_int_aux (l : List ℕ) :
    ∀ acc : ℕ, acc + l.sum < 2 ^ 53 →
      (l.map fun n : ℕ => (n : ℚ)).foldl (fun sum a => fadd sum (roundB64 a)) (acc : ℚ) =
        ((acc + l.sum : ℕ) : ℚ) := by
  induction l with
  | nil => intro acc _; simp
  | cons x xs ih =>
      intro acc hacc
      simp only [List.sum_cons] at hacc
      rw [List.map_cons, List.foldl_cons]
      have hx : x < 2 ^ 53 := by omega
      rw [roundB64_intCast x hx, fadd_natCast acc x (by omega)]
      rw [ih (acc + x) (by omega)]
      congr 1
      simp [List.sum_cons]
      omega

lemma totalExpensesF_int (l : List ℕ) (h : l.sum < 2 ^ 53) :
    totalExpensesF (l.map fun n : ℕ => (n : ℚ)) = (l.sum : ℚ) := by
  have h0 := totalExpensesF_int_aux l 0 (by omega)
  rw [totalExpensesF]
  rw [show ((0:ℚ)) = ((0:ℕ):ℚ) by norm_num]
  rw [h0]
  norm_num

lemma roundB64_tenth : roundB64 (1/10) = 3602879701896397 / 36028797018963968 := by
  rw [roundB64, if_neg (by norm_num), if_neg (by norm_num)]
  have hb : binade (1/10 : ℚ) = -4 := by
    apply binade_eq_of <;> norm_num
  rw [roundB64pos, hb]
  rw [show ((52:ℤ) - (-4)) = 56 by norm_num, show ((-4:ℤ) - 52) = -56 by norm_num]
  rw [show (1/10 : ℚ) * 2 ^ (56:ℤ) = 36028797018963968/5 by norm_num]
  have hfl : ⌊(36028797018963968/5 : ℚ)⌋ = 7205759403792793 := by
    rw [Int.floor_eq_iff]
    constructor <;> norm_num
  rw [roundHalfToEven, hfl]
  rw [if_neg (by push_cast; norm_num), if_pos (by push_cast; norm_num)]
  push_cast
  norm_num

lemma roundB64_fifth : roundB64 (2/10) = 3602879701896397 / 18014398509481984 := by
  rw [roundB64, if_neg (by norm_num), if_neg (by norm_num)]
  have hb : binade (2/10 : ℚ) = -3 := by
    apply binade_eq_of <;> norm_num
  rw [roundB64pos, hb]
  rw [show ((52:ℤ) - (-3)) = 55 by norm_num, show ((-3:ℤ) - 52) = -55 by norm_num]
  rw [show (2/10 : ℚ) * 2 ^ (55:ℤ) = 36028797018963968/5 by norm_num]
  have hfl : ⌊(36028797018963968/5 : ℚ)⌋ = 7205759403792793 := by
    rw [Int.floor_eq_iff]
    constructor <;> norm_num
  rw [roundHalfToEven, hfl]
  rw [if_neg (by push_cast; norm_num), if_pos (by push_cast; norm_num)]
  push_cast
  norm_num

lemma roundB64_r1_fixed :
    roundB64 (3602879701896397 / 36028797018963968) = 3602879701896397 / 36028797018963968 := by
  rw [roundB64, if_neg (by norm_num), if_neg (by norm_num)]
  have hb : binade (3602879701896397 / 36028797018963968 : ℚ) = -4 := by
    apply binade_eq_of <;> norm_num
  rw [roundB64pos, hb]
  rw [show ((52:ℤ) - (-4)) = 56 by norm_num, show ((-4:ℤ) - 52) = -56 by norm_num]
  rw [show (3602879701896397 / 36028797018963968 : ℚ) * 2 ^ (56:ℤ) =
      ((7205759403792794 : ℤ) : ℚ) by push_cast; norm_num]
  rw [roundHalfToEven_intCast]
  push_cast
  norm_num

lemma roundB64_sum :
    roundB64 (3602879701896397 / 36028797018963968 + 3602879701896397 / 18014398509481984) =
      1351079888211149 / 4503599627370496 := by
  rw [show (3602879701896397 / 36028797018963968 + 3602879701896397 / 18014398509481984 : ℚ) =
      10808639105689191 / 36028797018963968 by norm_num]
  rw [roundB64, if_neg (by norm_num), if_neg (by norm_num)]
  have hb : binade (10808639105689191 / 36028797018963968 : ℚ) = -2 := by
    apply binade_eq_of <;> norm_num
  rw [roundB64pos, hb]
  rw [show ((52:ℤ) - (-2)) = 54 by norm_num, show ((-2:ℤ) - 52) = -54 by norm_num]
  rw [show (10808639105689191 / 36028797018963968 : ℚ) * 2 ^ (54:ℤ) =
      10808639105689191/2 by norm_num]
  have hfl : ⌊(10808639105689191/2 : ℚ)⌋ = 5404319552844595 := by
    rw [Int.floor_eq_iff]
    constructor <;> norm_num
  rw [roundHalfToEven, hfl]
  rw [if_neg (by push_cast; norm_num), if_neg (by push_cast; norm_num),
    if_neg (by decide)]
  push_cast
  norm_num

lemma totalExpensesF_example :
    totalExpensesF [1/10, 2/10] = 1351079888211149 / 4503599627370496 := by
  unfold totalExpensesF
  simp only [List.foldl_cons, List.foldl_nil]
  rw [roundB64_tenth, roundB64_fifth]
  unfold fadd
  rw [zero_add, roundB64_r1_fixed, roundB64_sum]

/-- C5 counterexample. The claim — monetary sums use exact decimal addition,
so amounts with at most two decimal places always yield the exact decimal
total — is false on the code: the amounts 0.10 and 0.20 (one decimal place
each) produce a binary64 grand total different from the exact decimal sum
0.30. -/
theorem monetary_sums_not_exact_decimal :
    totalExpensesF [1/10, 2/10] ≠ 3/10 := by
  rw [totalExpensesF_example]
  norm_num

/-- C5 amended. Monetary sums use IEEE-754 binary64 addition, not exact
decimal addition: totals are exact for whole-dollar (integer) amounts
totalling below 2^53, but amounts with at most two decimal places can
deviate from the exact decimal sum at the sub-cent level — for 0.10 and
0.20 the computed grand total is exactly 1351079888211149/2^52
(about 0.30000000000000004), strictly above 0.30 by less than 10^-15. -/
theorem monetary_sums_binary64 :
    (∀ l : List ℕ, l.sum < 2 ^ 53 →
        totalExpensesF (l.map fun n : ℕ => (n : ℚ)) = (l.sum : ℚ)) ∧
    totalExpensesF [1/10, 2/10] = 1351079888211149 / 4503599627370496 ∧
    3/10 < totalExpensesF [1/10, 2/10] ∧
    totalExpensesF [1/10, 2/10] - 3/10 < 1/10^15 := by
  refine ⟨fun l h => totalExpensesF_int l h, totalExpensesF_example, ?_, ?_⟩
  · rw [totalExpensesF_example]
    norm_num
  · rw [totalExpensesF_example]
    norm_num

/-- Witness for the amended C5: the whole-dollar amounts 100 and 250 sum
exactly to 350 under binary64 accumulation. -/
theorem monetary_sums_binary64_witness :
    totalExpensesF (([100, 250] : List ℕ).map fun n : ℕ => (n : ℚ)) =
      (([100, 250] : List ℕ).sum : ℚ) :=
  monetary_sums_binary64.1 [100, 250] (by norm_num)
